import Mathlib

/-!
Verification of the requirement/provider resolution core of the
anaconda-project repository, as a shallow embedding in Lean 4.

The authoritative source embedded here is
`src/project/plugins/requirement.py` (classes `RequirementStatus`,
`Requirement`, `EnvVarRequirement`).  Components of the repository that
are exercised only through their tests under `src/` (the interactive UI
server, the service-requirement loader, CLI printing) are modelled from
the specification; each such definition carries a doc comment starting
with "Modelled from the spec:".
-/

/-- A Python value, as far as the embedded code inspects one: `None`,
booleans, integers, strings, lists and string-keyed dictionaries. -/
inductive PyValue where
  | none : PyValue
  | bool (b : Bool) : PyValue
  | int (n : Int) : PyValue
  | str (s : String) : PyValue
  | list (items : List PyValue) : PyValue
  | dict (entries : List (String × PyValue)) : PyValue

/-- Python truthiness (`bool(v)`) for the values of `PyValue`:
`None`, `False`, `0`, `""`, `[]` and the empty dict are falsy. -/
def PyValue.truthy : PyValue → Bool
  | PyValue.none => false
  | PyValue.bool b => b
  | PyValue.int n => decide (n ≠ 0)
  | PyValue.str s => decide (s ≠ "")
  | PyValue.list items => !items.isEmpty
  | PyValue.dict entries => !entries.isEmpty

/-- Lookup in a string-keyed association list, the embedding of a read
from a Python dict (`d.get(k)` / `k in d`). -/
def pyLookup (entries : List (String × PyValue)) (k : String) : Option PyValue :=
  (entries.find? (fun p => p.1 == k)).map Prod.snd

/-- An `environ` mapping (string env-var names to string values),
embedded as an association list; first binding wins, as a dict has at
most one binding per key. -/
def Environ : Type := List (String × String)

/-- `environ.get(k, None)`: the value bound to `k`, or `None`. -/
def Environ.get (e : Environ) (k : String) : Option String :=
  (List.find? (fun p => p.1 == k) e).map Prod.snd

/-- `environ.get(k, None)` in explicit state-passing form: a Python
`dict.get` returns the value and leaves the dict unchanged, so the
returned state is the input state. -/
def Environ.getS (e : Environ) (k : String) : Option String × Environ :=
  (e.get k, e)

/-- The plugin registry, as `EnvVarRequirement.check_status` uses it:
`find_providers_by_env_var` maps an env-var name to the ordered list of
(names of) providers that can satisfy it. -/
structure PluginRegistry where
  find_providers_by_env_var : String → List String

/-- `EnvVarRequirement` from `project/plugins/requirement.py`: the
`registry` and the (already deep-copied, see `Requirement_init` below)
`options` dict, plus the `env_var` attribute. -/
structure EnvVarRequirement where
  registry : PluginRegistry
  options : List (String × PyValue)
  env_var : String

/-- `RequirementStatus.__init__`: the requirement the status is about,
`has_been_provided`, `status_description` and `possible_providers`. -/
structure RequirementStatus where
  requirement : EnvVarRequirement
  has_been_provided : Bool
  status_description : String
  possible_providers : List String

/-- `_secret_suffixes` from `project/plugins/requirement.py`: suffixes
that change the default for the "encrypted" option. -/
def _secret_suffixes : List String := ["_PASSWORD", "_ENCRYPTED", "_SECRET_KEY", "_SECRET"]

/-- Python `s.endswith(suffix)`, embedded on the character lists. -/
def pyEndsWith (s suffix : String) : Bool :=
  suffix.data.isSuffixOf s.data

/-- `EnvVarRequirement.encrypted`: the raw value of
`options["encrypted"]` when that key is present, else whether `env_var`
ends with one of `_secret_suffixes` (as a Python bool). -/
def EnvVarRequirement.encrypted (r : EnvVarRequirement) : PyValue :=
  match pyLookup r.options "encrypted" with
  | some v => v
  | Option.none => PyValue.bool (_secret_suffixes.any (fun suffix => pyEndsWith r.env_var suffix))

/-- `EnvVarRequirement._get_value_of_env_var` in state-passing form:
`value = environ.get(self.env_var, None); if value == "": value = None`. -/
def EnvVarRequirement.get_value_of_env_varS (r : EnvVarRequirement) (environ : Environ) :
    Option String × Environ :=
  let p := environ.getS r.env_var
  ((if p.1 == some "" then Option.none else p.1), p.2)

/-- `EnvVarRequirement._get_value_of_env_var` (value component). -/
def EnvVarRequirement.get_value_of_env_var (r : EnvVarRequirement) (environ : Environ) :
    Option String :=
  (r.get_value_of_env_varS environ).1

/-- `EnvVarRequirement._unset_message`. -/
def EnvVarRequirement.unset_message (r : EnvVarRequirement) : String :=
  "Environment variable " ++ r.env_var ++ " is not set."

/-- Python string formatting of the value object inserted by
`_set_message` (`None` prints as "None", a string prints as itself). -/
def pyFormatOptStr : Option String → String
  | Option.none => "None"
  | some s => s

/-- `EnvVarRequirement._set_message`: the fixed message when
`self.encrypted` is truthy, else the message that embeds the value. -/
def EnvVarRequirement.set_message (r : EnvVarRequirement) (environ : Environ) : String :=
  if r.encrypted.truthy then
    "Environment variable " ++ r.env_var ++ " is set."
  else
    "Environment variable " ++ r.env_var ++ " set to '" ++
      pyFormatOptStr (r.get_value_of_env_var environ) ++ "'"

/-- `EnvVarRequirement.check_status` in state-passing form: every read
of `environ` goes through `Environ.getS`, so the returned state is the
environ the method body leaves behind. -/
def EnvVarRequirement.check_statusS (r : EnvVarRequirement) (environ : Environ) :
    RequirementStatus × Environ :=
  let p := r.get_value_of_env_varS environ
  let possible_providers := r.registry.find_providers_by_env_var r.env_var
  (match p.1 with
   | Option.none => ⟨r, false, r.unset_message, possible_providers⟩
   | some _ => ⟨r, true, r.set_message p.2, possible_providers⟩,
   p.2)

/-- `EnvVarRequirement.check_status` (status component). -/
def EnvVarRequirement.check_status (r : EnvVarRequirement) (environ : Environ) :
    RequirementStatus :=
  (r.check_statusS environ).1

example :
    let r : EnvVarRequirement := ⟨⟨fun _ => []⟩, [], "FOO"⟩
    (r.check_status [("FOO", "")]).has_been_provided = false := by decide

example :
    let r : EnvVarRequirement := ⟨⟨fun _ => []⟩, [], "FOO"⟩
    (r.check_status [("FOO", "bar")]).status_description =
      "Environment variable FOO set to 'bar'" := by decide

example :
    let r : EnvVarRequirement := ⟨⟨fun _ => []⟩, [], "X_SECRET"⟩
    (r.check_status [("X_SECRET", "bar")]).status_description =
      "Environment variable X_SECRET is set." := by decide

example : (⟨⟨fun _ => []⟩, [("encrypted", PyValue.int 0)], "A_PASSWORD"⟩ :
    EnvVarRequirement).encrypted.truthy = false := by decide

/-- C1: if `environ` maps the requirement's `env_var` to the empty
string, `check_status` reports `has_been_provided = false`, and both
`has_been_provided` and `status_description` coincide with those
returned on any environ from which `env_var` is entirely absent. -/
theorem check_status_empty_string_like_absent (r : EnvVarRequirement) (e e' : Environ)
    (he : e.get r.env_var = some "") (he' : e'.get r.env_var = Option.none) :
    (r.check_status e).has_been_provided = false ∧
    (r.check_status e).has_been_provided = (r.check_status e').has_been_provided ∧
    (r.check_status e).status_description = (r.check_status e').status_description := by
  unfold EnvVarRequirement.check_status EnvVarRequirement.check_statusS
    EnvVarRequirement.get_value_of_env_varS Environ.getS
  rw [he, he']
  simp

/-- Witness for C1 at a concrete requirement and environs. -/
theorem check_status_empty_string_like_absent_witness :
    ((⟨⟨fun _ => []⟩, [], "FOO"⟩ : EnvVarRequirement).check_status
        [("FOO", "")]).has_been_provided = false ∧
    ((⟨⟨fun _ => []⟩, [], "FOO"⟩ : EnvVarRequirement).check_status
        [("FOO", "")]).has_been_provided =
      ((⟨⟨fun _ => []⟩, [], "FOO"⟩ : EnvVarRequirement).check_status []).has_been_provided ∧
    ((⟨⟨fun _ => []⟩, [], "FOO"⟩ : EnvVarRequirement).check_status
        [("FOO", "")]).status_description =
      ((⟨⟨fun _ => []⟩, [], "FOO"⟩ : EnvVarRequirement).check_status []).status_description :=
  check_status_empty_string_like_absent ⟨⟨fun _ => []⟩, [], "FOO"⟩ [("FOO", "")] [] rfl rfl

/-- C2: `encrypted` is truthy iff `options["encrypted"]` is present and
truthy, or absent while `env_var` ends with a secret suffix. -/
theorem encrypted_truthy_iff (r : EnvVarRequirement) :
    r.encrypted.truthy = true ↔
      ((∃ v, pyLookup r.options "encrypted" = some v ∧ v.truthy = true) ∨
       (pyLookup r.options "encrypted" = Option.none ∧
        (_secret_suffixes.any (fun suffix => pyEndsWith r.env_var suffix)) = true)) := by
  unfold EnvVarRequirement.encrypted
  cases h : pyLookup r.options "encrypted" <;> simp [h, PyValue.truthy]

/-- C6: `check_status` does not mutate `environ` (the state-passing
embedding returns the input environ unchanged), and calling it again on
the resulting environ yields a status with the same `has_been_provided`
and `status_description`. -/
theorem check_status_no_mutation (r : EnvVarRequirement) (e : Environ) :
    (r.check_statusS e).2 = e ∧
    (r.check_status ((r.check_statusS e).2)).has_been_provided =
      (r.check_status e).has_been_provided ∧
    (r.check_status ((r.check_statusS e).2)).status_description =
      (r.check_status e).status_description :=
  ⟨rfl, rfl, rfl⟩

/-- C10: when the requirement is encrypted and its env var is set to a
non-empty value, the status description is the fixed message that does
not embed the value (so the same description results whatever the
value is). -/
theorem encrypted_status_description_fixed (r : EnvVarRequirement) (e : Environ) (v : String)
    (henc : r.encrypted.truthy = true) (hv : e.get r.env_var = some v) (hne : v ≠ "") :
    (r.check_status e).status_description =
      "Environment variable " ++ r.env_var ++ " is set." := by
  unfold EnvVarRequirement.check_status EnvVarRequirement.check_statusS
    EnvVarRequirement.get_value_of_env_varS Environ.getS
  rw [hv]
  have hbeq : (some v == some "") = false := by
    simp [hne]
  simp only [hbeq, if_false]
  simp [EnvVarRequirement.set_message, henc]

/-- Witness for C10 at a concrete encrypted requirement. -/
theorem encrypted_status_description_fixed_witness :
    ((⟨⟨fun _ => []⟩, [], "X_SECRET"⟩ : EnvVarRequirement).check_status
        [("X_SECRET", "hunter2")]).status_description =
      "Environment variable " ++ "X_SECRET" ++ " is set." :=
  encrypted_status_description_fixed ⟨⟨fun _ => []⟩, [], "X_SECRET"⟩
    [("X_SECRET", "hunter2")] "hunter2" (by decide) rfl (by decide)

/-- A value held in a Python dict cell for the aliasing analysis of
`Requirement.__init__`: an immutable scalar, or a reference to a
mutable list object in the heap. -/
inductive DVal where
  | scalar (v : PyValue) : DVal
  | listRef (addr : Nat) : DVal

/-- The heap of Python objects `Requirement.__init__` touches: dict
objects and list objects, keyed by object identity (address). -/
structure PyHeap where
  dicts : List (Nat × List (String × DVal))
  lists : List (Nat × List PyValue)

/-- Address lookup in a cell list (first cell wins; addresses are
unique in a well-formed heap). -/
def lookupAddr {α : Type} (cells : List (Nat × α)) (a : Nat) : Option α :=
  (cells.find? (fun p => p.1 == a)).map Prod.snd

/-- The largest address in use in the heap. -/
def PyHeap.maxAddr (h : PyHeap) : Nat :=
  ((h.dicts.map Prod.fst) ++ (h.lists.map Prod.fst)).foldr max 0

/-- A fresh address: larger than every address in use. -/
def PyHeap.fresh (h : PyHeap) : Nat := h.maxAddr + 1

/-- The recursive worker of `deepcopy(options)`: copy dict entries,
copying each referenced list object into a freshly allocated cell
(scalars are immutable and need no copy; a dangling reference, which
cannot arise for a real Python object, is kept as is). -/
def copyEntries : PyHeap → List (String × DVal) → PyHeap × List (String × DVal)
  | _h, [] => (_h, [])
  | _h, (k, DVal.scalar v) :: rest =>
      let q := copyEntries _h rest
      (q.1, (k, DVal.scalar v) :: q.2)
  | _h, (k, DVal.listRef a) :: rest =>
      match lookupAddr _h.lists a with
      | Option.none =>
          let q := copyEntries _h rest
          (q.1, (k, DVal.listRef a) :: q.2)
      | some items =>
          let f := _h.fresh
          let h1 : PyHeap := ⟨_h.dicts, (f, items) :: _h.lists⟩
          let q := copyEntries h1 rest
          (q.1, (k, DVal.listRef f) :: q.2)

/-- `Requirement.__init__` on the heap: `self.options = dict()` when
`options is None`, else `self.options = deepcopy(options)`.  Returns
the heap after construction and the address of the requirement's own
options dict. -/
def Requirement_init (h : PyHeap) (options : Option Nat) : PyHeap × Nat :=
  match options with
  | Option.none =>
      (⟨(h.fresh, []) :: h.dicts, h.lists⟩, h.fresh)
  | some d =>
      match lookupAddr h.dicts d with
      | Option.none =>
          (⟨(h.fresh, []) :: h.dicts, h.lists⟩, h.fresh)
      | some entries =>
          let q := copyEntries h entries
          (⟨(q.1.fresh, q.2) :: q.1.dicts, q.1.lists⟩, q.1.fresh)

/-- In-place update of the cell at address `a` (identity elsewhere). -/
def mutateAt {α : Type} : List (Nat × α) → Nat → (α → α) → List (Nat × α)
  | [], _, _ => []
  | p :: rest, a, f => (if p.1 == a then (p.1, f p.2) else p) :: mutateAt rest a f

/-- The caller mutates a dict object in place (`d[k] = v`, `del d[k]`,
`d.clear()`, ... — any in-place change of its entries). -/
def PyHeap.mutateDict (h : PyHeap) (a : Nat)
    (f : List (String × DVal) → List (String × DVal)) : PyHeap :=
  ⟨mutateAt h.dicts a f, h.lists⟩

/-- The caller mutates a list object in place (`l.append(v)`, ...). -/
def PyHeap.mutateList (h : PyHeap) (a : Nat) (g : List PyValue → List PyValue) : PyHeap :=
  ⟨h.dicts, mutateAt h.lists a g⟩

/-- The observable value of a dict entry: scalars as themselves, list
references resolved through the list heap. -/
def snapEntry (lists : List (Nat × List PyValue)) : String × DVal →
    String × (PyValue ⊕ Option (List PyValue))
  | (k, DVal.scalar v) => (k, Sum.inl v)
  | (k, DVal.listRef a) => (k, Sum.inr (lookupAddr lists a))

/-- The observable (deep) value of the dict at address `d`. -/
def snapshotDict (h : PyHeap) (d : Nat) :
    Option (List (String × (PyValue ⊕ Option (List PyValue)))) :=
  (lookupAddr h.dicts d).map (fun entries => entries.map (snapEntry h.lists))

/-- A dict value whose list references all point at allocated cells
(true of any real Python dict). -/
def DVal.refOK (h : PyHeap) : DVal → Prop
  | DVal.scalar _ => True
  | DVal.listRef a => ∃ items, lookupAddr h.lists a = some items

/-- All entries of a dict value have allocated references. -/
def entriesWF (h : PyHeap) (entries : List (String × DVal)) : Prop :=
  ∀ p ∈ entries, DVal.refOK h p.2

theorem le_foldr_max (l : List Nat) (a : Nat) (ha : a ∈ l) : a ≤ l.foldr max 0 := by
  induction l with
  | nil => cases ha
  | cons x xs ih =>
      simp only [List.foldr]
      rcases List.mem_cons.mp ha with rfl | hmem
      · exact Nat.le_max_left _ _
      · exact le_trans (ih hmem) (Nat.le_max_right _ _)

theorem lookupAddr_mem {α : Type} (cells : List (Nat × α)) (a : Nat)
    (h : (lookupAddr cells a).isSome = true) : a ∈ cells.map Prod.fst := by
  unfold lookupAddr at h
  cases hf : cells.find? (fun p => p.1 == a) with
  | none => rw [hf] at h; simp at h
  | some p =>
      have hmem := List.mem_of_find?_eq_some hf
      have hpred : p.1 = a := by
        have := List.find?_some hf
        simpa using this
      exact List.mem_map.mpr ⟨p, hmem, hpred⟩

theorem dict_addr_le_maxAddr (h : PyHeap) (a : Nat)
    (hl : (lookupAddr h.dicts a).isSome = true) : a ≤ h.maxAddr :=
  le_foldr_max _ _ (List.mem_append_left _ (lookupAddr_mem _ _ hl))

theorem list_addr_le_maxAddr (h : PyHeap) (a : Nat)
    (hl : (lookupAddr h.lists a).isSome = true) : a ≤ h.maxAddr :=
  le_foldr_max _ _ (List.mem_append_right _ (lookupAddr_mem _ _ hl))

theorem lookupAddr_cons {α : Type} (f : Nat) (x : α) (cells : List (Nat × α)) (a : Nat) :
    lookupAddr ((f, x) :: cells) a = if f == a then some x else lookupAddr cells a := by
  unfold lookupAddr
  cases hfa : (f == a) <;> simp [List.find?_cons, hfa]

theorem foldr_max_insert_le (l1 l2 : List Nat) (x : Nat) :
    (l1 ++ l2).foldr max 0 ≤ (l1 ++ x :: l2).foldr max 0 := by
  induction l1 with
  | nil => simp only [List.nil_append, List.foldr]; exact Nat.le_max_right _ _
  | cons y ys ih =>
      simp only [List.cons_append, List.foldr]
      exact max_le_max (le_refl y) ih

theorem maxAddr_cons_list_le (h : PyHeap) (f : Nat) (items : List PyValue) :
    h.maxAddr ≤ (PyHeap.mk h.dicts ((f, items) :: h.lists)).maxAddr := by
  unfold PyHeap.maxAddr
  exact foldr_max_insert_le _ _ _

theorem fresh_le_maxAddr_cons (h : PyHeap) (items : List PyValue) :
    h.fresh ≤ (PyHeap.mk h.dicts ((h.fresh, items) :: h.lists)).maxAddr := by
  unfold PyHeap.maxAddr
  exact le_foldr_max _ _ (List.mem_append_right _ (by simp))

theorem copyEntries_dicts (es : List (String × DVal)) : ∀ (h : PyHeap),
    (copyEntries h es).1.dicts = h.dicts := by
  induction es with
  | nil => intro h; rfl
  | cons p rest ih =>
      intro h
      obtain ⟨k, v⟩ := p
      cases v with
      | scalar s => simpa [copyEntries] using ih h
      | listRef a =>
          cases hl : lookupAddr h.lists a with
          | none => simpa [copyEntries, hl] using ih h
          | some items =>
              simpa [copyEntries, hl] using ih ⟨h.dicts, (h.fresh, items) :: h.lists⟩

theorem copyEntries_maxAddr_le (es : List (String × DVal)) : ∀ (h : PyHeap),
    h.maxAddr ≤ (copyEntries h es).1.maxAddr := by
  induction es with
  | nil => intro h; exact le_refl _
  | cons p rest ih =>
      intro h
      obtain ⟨k, v⟩ := p
      cases v with
      | scalar s => simpa [copyEntries] using ih h
      | listRef a =>
          cases hl : lookupAddr h.lists a with
          | none => simpa [copyEntries, hl] using ih h
          | some items =>
              have h1le := maxAddr_cons_list_le h h.fresh items
              have h2le := ih ⟨h.dicts, (h.fresh, items) :: h.lists⟩
              simpa [copyEntries, hl] using le_trans h1le h2le

theorem copyEntries_lookup_lists (es : List (String × DVal)) : ∀ (h : PyHeap) (a : Nat),
    a ≤ h.maxAddr →
    lookupAddr (copyEntries h es).1.lists a = lookupAddr h.lists a := by
  induction es with
  | nil => intro h a _; rfl
  | cons p rest ih =>
      intro h a ha
      obtain ⟨k, v⟩ := p
      cases v with
      | scalar s => simpa [copyEntries] using ih h a ha
      | listRef b =>
          cases hl : lookupAddr h.lists b with
          | none => simpa [copyEntries, hl] using ih h a ha
          | some items =>
              have hane : (h.fresh == a) = false := by
                have hlt : a < h.fresh := Nat.lt_succ_of_le ha
                simp [Nat.ne_of_gt hlt]
              have ha1 : a ≤ (PyHeap.mk h.dicts ((h.fresh, items) :: h.lists)).maxAddr :=
                le_trans ha (maxAddr_cons_list_le h h.fresh items)
              have hrec := ih ⟨h.dicts, (h.fresh, items) :: h.lists⟩ a ha1
              simp only [copyEntries, hl] at hrec ⊢
              rw [hrec, lookupAddr_cons, hane]
              simp

theorem entriesWF_cons_list (h : PyHeap) (items : List PyValue) (rest : List (String × DVal))
    (hwf : entriesWF h rest) :
    entriesWF ⟨h.dicts, (h.fresh, items) :: h.lists⟩ rest := by
  intro p hp
  have hok := hwf p hp
  cases hv : p.2 with
  | scalar s => exact trivial
  | listRef c =>
      rw [hv] at hok
      obtain ⟨its, hits⟩ := hok
      refine ⟨its, ?_⟩
      have hc : c ≤ h.maxAddr := list_addr_le_maxAddr h c (by rw [hits]; rfl)
      have hne : (h.fresh == c) = false := by
        have hlt : c < h.fresh := Nat.lt_succ_of_le hc
        simp [Nat.ne_of_gt hlt]
      show lookupAddr ((h.fresh, items) :: h.lists) c = some its
      rw [lookupAddr_cons, hne]
      simpa using hits

theorem snapEntry_cons_fresh (h : PyHeap) (items : List PyValue) (p : String × DVal)
    (hok : DVal.refOK h p.2) :
    snapEntry ((h.fresh, items) :: h.lists) p = snapEntry h.lists p := by
  obtain ⟨k, v⟩ := p
  cases v with
  | scalar s => rfl
  | listRef c =>
      obtain ⟨its, hits⟩ := hok
      have hc : c ≤ h.maxAddr := list_addr_le_maxAddr h c (by rw [hits]; rfl)
      have hne : (h.fresh == c) = false := by
        have hlt : c < h.fresh := Nat.lt_succ_of_le hc
        simp [Nat.ne_of_gt hlt]
      simp [snapEntry, lookupAddr_cons, hne]

theorem copyEntries_refs_fresh (es : List (String × DVal)) : ∀ (h : PyHeap),
    entriesWF h es → ∀ p ∈ (copyEntries h es).2, ∀ b, p.2 = DVal.listRef b → h.maxAddr < b := by
  induction es with
  | nil => intro h _ p hp; cases hp
  | cons q rest ih =>
      intro h hwf p hp b hb
      have hwfrest : entriesWF h rest := fun x hx => hwf x (List.mem_cons_of_mem _ hx)
      obtain ⟨k, v⟩ := q
      cases v with
      | scalar s =>
          simp only [copyEntries] at hp
          rcases List.mem_cons.mp hp with rfl | hmem
          · cases hb
          · exact ih h hwfrest p hmem b hb
      | listRef a =>
          cases hl : lookupAddr h.lists a with
          | none =>
              exfalso
              have hok := hwf (k, DVal.listRef a) (List.mem_cons_self _ _)
              obtain ⟨its, hits⟩ := hok
              rw [hl] at hits
              cases hits
          | some items =>
              simp only [copyEntries, hl] at hp
              rcases List.mem_cons.mp hp with rfl | hmem
              · cases hb
                exact Nat.lt_succ_of_le (le_refl _)
              · have hwf1 : entriesWF ⟨h.dicts, (h.fresh, items) :: h.lists⟩ rest :=
                  entriesWF_cons_list h items rest hwfrest
                have hlt := ih ⟨h.dicts, (h.fresh, items) :: h.lists⟩ hwf1 p hmem b hb
                exact lt_of_le_of_lt (maxAddr_cons_list_le h h.fresh items) hlt

theorem copyEntries_snapshot (es : List (String × DVal)) : ∀ (h : PyHeap),
    entriesWF h es →
    ((copyEntries h es).2).map (snapEntry (copyEntries h es).1.lists) =
      es.map (snapEntry h.lists) := by
  induction es with
  | nil => intro h _; rfl
  | cons q rest ih =>
      intro h hwf
      have hwfrest : entriesWF h rest := fun x hx => hwf x (List.mem_cons_of_mem _ hx)
      obtain ⟨k, v⟩ := q
      cases v with
      | scalar s =>
          simpa [copyEntries, snapEntry] using ih h hwfrest
      | listRef a =>
          cases hl : lookupAddr h.lists a with
          | none =>
              exfalso
              have hok := hwf (k, DVal.listRef a) (List.mem_cons_self _ _)
              obtain ⟨its, hits⟩ := hok
              rw [hl] at hits
              cases hits
          | some items =>
              have hwf1 : entriesWF ⟨h.dicts, (h.fresh, items) :: h.lists⟩ rest :=
                entriesWF_cons_list h items rest hwfrest
              have ihr := ih ⟨h.dicts, (h.fresh, items) :: h.lists⟩ hwf1
              have hfr : h.fresh ≤ (PyHeap.mk h.dicts ((h.fresh, items) :: h.lists)).maxAddr :=
                fresh_le_maxAddr_cons h items
              have hlk : lookupAddr
                    (copyEntries ⟨h.dicts, (h.fresh, items) :: h.lists⟩ rest).1.lists h.fresh =
                  lookupAddr ((h.fresh, items) :: h.lists) h.fresh :=
                copyEntries_lookup_lists rest ⟨h.dicts, (h.fresh, items) :: h.lists⟩ h.fresh hfr
              have hhead : lookupAddr ((h.fresh, items) :: h.lists) h.fresh = some items := by
                rw [lookupAddr_cons]
                simp
              have htail : rest.map (snapEntry ((h.fresh, items) :: h.lists)) =
                  rest.map (snapEntry h.lists) :=
                List.map_congr_left (fun x hx => snapEntry_cons_fresh h items x (hwfrest x hx))
              simp only [copyEntries, hl]
              simp only [List.map_cons, snapEntry, hlk, hhead]
              rw [ihr]
              rw [htail]
              simp [snapEntry, hl]

theorem lookupAddr_mutateAt_ne {α : Type} (cells : List (Nat × α)) (a b : Nat) (g : α → α)
    (hne : a ≠ b) : lookupAddr (mutateAt cells a g) b = lookupAddr cells b := by
  induction cells with
  | nil => rfl
  | cons p rest ih =>
      obtain ⟨c, x⟩ := p
      by_cases hca : c = a
      · simp [mutateAt, lookupAddr_cons, hca, hne, ih]
      · by_cases hcb : c = b
        · simp [mutateAt, lookupAddr_cons, hca, hcb, Ne.symm hne]
        · simp [mutateAt, lookupAddr_cons, hca, hcb, ih]

/-- C5: `Requirement.__init__` deep-copies a non-None caller options
dict: after construction, any in-place mutation the caller applies to
an object that existed before construction (in particular its own
options dict and every list it references) leaves the observable value
of the requirement's stored options dict unchanged. -/
theorem Requirement_init_deepcopy (h : PyHeap) (d : Nat) (entries : List (String × DVal))
    (hd : lookupAddr h.dicts d = some entries) (hwf : entriesWF h entries)
    (a : Nat) (ha : a ≤ h.maxAddr)
    (f : List (String × DVal) → List (String × DVal)) (g : List PyValue → List PyValue) :
    snapshotDict ((Requirement_init h (some d)).1.mutateDict a f)
        (Requirement_init h (some d)).2 =
      snapshotDict (Requirement_init h (some d)).1 (Requirement_init h (some d)).2 ∧
    snapshotDict ((Requirement_init h (some d)).1.mutateList a g)
        (Requirement_init h (some d)).2 =
      snapshotDict (Requirement_init h (some d)).1 (Requirement_init h (some d)).2 := by
  have hinit : Requirement_init h (some d) =
      (⟨((copyEntries h entries).1.fresh, (copyEntries h entries).2) ::
          (copyEntries h entries).1.dicts, (copyEntries h entries).1.lists⟩,
       (copyEntries h entries).1.fresh) := by
    simp [Requirement_init, hd]
  rw [hinit]
  have haq : a ≤ (copyEntries h entries).1.maxAddr :=
    le_trans ha (copyEntries_maxAddr_le entries h)
  have har : a ≠ (copyEntries h entries).1.fresh := Nat.ne_of_lt (Nat.lt_succ_of_le haq)
  constructor
  · simp only [PyHeap.mutateDict, snapshotDict]
    rw [lookupAddr_mutateAt_ne _ a _ f har]
  · simp only [PyHeap.mutateList, snapshotDict]
    rw [lookupAddr_cons]
    have hcong : ((copyEntries h entries).2).map
          (snapEntry (mutateAt (copyEntries h entries).1.lists a g)) =
        ((copyEntries h entries).2).map (snapEntry (copyEntries h entries).1.lists) := by
      apply List.map_congr_left
      intro p hp
      obtain ⟨k, v⟩ := p
      cases v with
      | scalar s => rfl
      | listRef b =>
          have hfreshb : h.maxAddr < b :=
            copyEntries_refs_fresh entries h hwf (k, DVal.listRef b) hp b rfl
          have hab : a ≠ b := Nat.ne_of_lt (lt_of_le_of_lt ha hfreshb)
          simp [snapEntry, lookupAddr_mutateAt_ne _ a b g hab]
    simp [hcong]

/-- A concrete heap for the C5 witness: the caller's options dict at
address 0 holds a scalar and a reference to the list at address 1. -/
def exHeap : PyHeap :=
  ⟨[(0, [("encrypted", DVal.scalar (PyValue.bool true)), ("xs", DVal.listRef 1)])],
   [(1, [PyValue.int 42])]⟩

/-- The entries of the caller's options dict in `exHeap`. -/
def exEntries : List (String × DVal) :=
  [("encrypted", DVal.scalar (PyValue.bool true)), ("xs", DVal.listRef 1)]

/-- Witness for C5: the caller empties its dict (address 0 mutated via
address 1 here) and its referenced list; the requirement's snapshot is
unchanged. -/
theorem Requirement_init_deepcopy_witness :
    snapshotDict ((Requirement_init exHeap (some 0)).1.mutateDict 1 (fun _ => []))
        (Requirement_init exHeap (some 0)).2 =
      snapshotDict (Requirement_init exHeap (some 0)).1 (Requirement_init exHeap (some 0)).2 ∧
    snapshotDict ((Requirement_init exHeap (some 0)).1.mutateList 1 (fun _ => []))
        (Requirement_init exHeap (some 0)).2 =
      snapshotDict (Requirement_init exHeap (some 0)).1 (Requirement_init exHeap (some 0)).2 :=
  Requirement_init_deepcopy exHeap 0 exEntries rfl
    (by
      intro p hp
      rcases List.mem_cons.mp hp with rfl | hp2
      · exact trivial
      · rcases List.mem_cons.mp hp2 with rfl | hp3
        · exact ⟨[PyValue.int 42], rfl⟩
        · cases hp3)
    1 (by decide) (fun _ => []) (fun _ => [])

/-- Modelled from the spec: the persisted local state store
(`LocalStateFile`, not under `src/`), a mapping keyed by path segments
such as ["variables", "FOO"]. -/
def LocalState : Type := List (List String × String)

/-- `local_state_file.get_value(path)`. -/
def LocalState.get_value (ls : LocalState) (path : List String) : Option String :=
  (List.find? (fun p => p.1 == path) ls).map Prod.snd

/-- `local_state_file.set_value(path, v)` (latest write wins). -/
def LocalState.set_value (ls : LocalState) (path : List String) (v : String) : LocalState :=
  (path, v) :: ls

/-- Modelled from the spec: the terminal result of a preparation
pipeline — success with its ordered logs, or failure with logs and
errors (the `command_exec_info`/`environ` payload of a success is not
needed by the claims and is omitted). -/
inductive PrepareResult where
  | success (logs : List String) : PrepareResult
  | failure (logs : List String) (errors : List String) : PrepareResult
deriving DecidableEq

/-- Modelled from the spec: the single completion event the UI server
emits to the caller's event handler after processing a POST. -/
structure UIServerDoneEvent where
  result : PrepareResult
deriving DecidableEq

/-- Modelled from the spec (the `project/internal/ui_server.py` module
is not under `src/`; only its tests are): the state of the
single-session interactive configuration server — the unmet
requirements keyed by requirement id, the persisted local state, the
terminal result its prepare stage produces when resumed (the tests
drive a no-op stage whose result is `PrepareSuccess` with empty logs),
and whether the listening socket is open. -/
structure UIServer where
  requirements_by_id : List (String × EnvVarRequirement)
  local_state : LocalState
  stage_result : PrepareResult
  listening : Bool

/-- Modelled from the spec: the provider names known for an env-var
requirement (the interactive env-var provider only). -/
def providerNames (_r : EnvVarRequirement) : List String := ["EnvVarProvider"]

/-- Modelled from the spec: on GET the server renders one text input
field per unmet requirement needing manual entry, named by the
composite key of requirement id, provider name and field name. -/
def UIServer.get_form_fields (s : UIServer) : List String :=
  s.requirements_by_id.map (fun p => p.1 ++ ".EnvVarProvider.value")

/-- Python `repr` of a list of strings, as it appears in the
"not enough pieces" log line. -/
def pyStrListRepr (l : List String) : String :=
  "[" ++ String.intercalate ", " (l.map (fun s => "'" ++ s ++ "'")) ++ "]"

/-- Splitting a character list at dots (worker). -/
def splitDotsAux : List Char → List Char → List String
  | [], acc => [String.mk acc.reverse]
  | c :: rest, acc =>
      if c = '.' then String.mk acc.reverse :: splitDotsAux rest []
      else splitDotsAux rest (c :: acc)

/-- Python `name.split(".")`. -/
def splitDots (s : String) : List String := splitDotsAux s.data []

/-- Modelled from the spec: routing of one posted form field.  The
field name is split on dots; fewer than three pieces, a first piece
that is no known requirement id, or a second piece that is no known
provider name are logged and ignored; otherwise the submitted value is
stored in local state under ["variables", env_var].  Returns the log
lines and the updated local state. -/
def routePostedField (reqs : List (String × EnvVarRequirement)) (ls : LocalState)
    (name value : String) : List String × LocalState :=
  let pieces := splitDots name
  match pieces with
  | req_id :: provider_key :: _ :: _ =>
      match (List.find? (fun p => p.1 == req_id) reqs).map Prod.snd with
      | Option.none => ([req_id ++ " not a known requirement id"], ls)
      | some req =>
          if (providerNames req).contains provider_key then
            ([], ls.set_value ["variables", req.env_var] value)
          else
            (["did not find provider " ++ provider_key], ls)
  | _ => (["not enough pieces in " ++ pyStrListRepr pieces], ls)

/-- The response of the POST handler: the HTTP code, the log lines
written while routing, the server state afterwards, and the events
emitted to the caller's event handler. -/
structure UIPostResponse where
  code : Nat
  logs : List String
  server : UIServer
  events : List UIServerDoneEvent

/-- Modelled from the spec: the POST handler routes every submitted
field (malformed ones are logged and ignored, never an exception —
the handler is a total function), answers HTTP 200 regardless of the
validation outcome, and then emits exactly one completion event
carrying the prepare stage's result. -/
def UIServer.handle_post (s : UIServer) (form : List (String × String)) : UIPostResponse :=
  let step := form.foldl
    (fun acc field =>
      let r := routePostedField s.requirements_by_id acc.2 field.1 field.2
      (acc.1 ++ r.1, r.2))
    ([], s.local_state)
  ⟨200, step.1, ⟨s.requirements_by_id, step.2, s.stage_result, s.listening⟩, [⟨s.stage_result⟩]⟩

/-- Modelled from the spec: `unlisten` releases the listening socket. -/
def UIServer.unlisten (s : UIServer) : UIServer :=
  ⟨s.requirements_by_id, s.local_state, s.stage_result, false⟩

/-- C3: for a session with exactly one unmet env-var requirement FOO,
the GET form has exactly one text input field; posting a value under
that field's composite name stores the value verbatim in local state
at ["variables", "FOO"], logs nothing, and terminates the session
with one success completion event.  (The hypothesis on `splitDots`
states that the requirement id contains no dot, as real ids do not.) -/
theorem ui_form_roundtrip (s : UIServer) (i v : String) (r : EnvVarRequirement)
    (hs : s.requirements_by_id = [(i, r)])
    (hvar : r.env_var = "FOO")
    (hres : s.stage_result = PrepareResult.success [])
    (hsplit : splitDots (i ++ ".EnvVarProvider.value") = [i, "EnvVarProvider", "value"]) :
    s.get_form_fields = [i ++ ".EnvVarProvider.value"] ∧
    ((s.handle_post [(i ++ ".EnvVarProvider.value", v)]).server.local_state.get_value
        ["variables", "FOO"] = some v) ∧
    (s.handle_post [(i ++ ".EnvVarProvider.value", v)]).logs = [] ∧
    (s.handle_post [(i ++ ".EnvVarProvider.value", v)]).events =
      [⟨PrepareResult.success []⟩] := by
  refine ⟨?_, ?_, ?_, ?_⟩
  · simp [UIServer.get_form_fields, hs]
  · simp [UIServer.handle_post, routePostedField, hs, hsplit, providerNames,
      LocalState.set_value, LocalState.get_value, hvar]
  · simp [UIServer.handle_post, routePostedField, hs, hsplit, providerNames]
  · simp [UIServer.handle_post, hres]

/-- The server used by the interactive-session witnesses: one unmet
requirement FOO under id "r1", empty local state, a no-op prepare
stage, listening. -/
def exServer : UIServer :=
  ⟨[("r1", ⟨⟨fun _ => []⟩, [], "FOO"⟩)], [], PrepareResult.success [], true⟩

/-- Witness for C3 on `exServer` with submitted value "bloop". -/
theorem ui_form_roundtrip_witness :
    exServer.get_form_fields = ["r1" ++ ".EnvVarProvider.value"] ∧
    ((exServer.handle_post [("r1" ++ ".EnvVarProvider.value", "bloop")]).server.local_state.get_value
        ["variables", "FOO"] = some "bloop") ∧
    (exServer.handle_post [("r1" ++ ".EnvVarProvider.value", "bloop")]).logs = [] ∧
    (exServer.handle_post [("r1" ++ ".EnvVarProvider.value", "bloop")]).events =
      [⟨PrepareResult.success []⟩] :=
  ui_form_roundtrip exServer "r1" "bloop" ⟨⟨fun _ => []⟩, [], "FOO"⟩ rfl rfl rfl (by decide)

/-- C4: malformed POSTed field names are swallowed, never an error
response: every POST whatever its form fields yields HTTP 200 (and the
handler is a total function, so it never raises); a name with fewer
than three dot-separated pieces, an unknown requirement id, and an
unknown provider name each log exactly the corresponding message and
still emit the one completion event. -/
theorem ui_malformed_post_swallowed (s : UIServer) (v : String) :
    (∀ form, (s.handle_post form).code = 200 ∧
      (s.handle_post form).events = [⟨s.stage_result⟩]) ∧
    ((s.handle_post [("nopieces", v)]).code = 200 ∧
     (s.handle_post [("nopieces", v)]).logs = ["not enough pieces in ['nopieces']"] ∧
     (s.handle_post [("nopieces", v)]).events = [⟨s.stage_result⟩]) ∧
    (List.find? (fun p => p.1 == "badid") s.requirements_by_id = Option.none →
     (s.handle_post [("badid.EnvVarProvider.value", v)]).code = 200 ∧
     (s.handle_post [("badid.EnvVarProvider.value", v)]).logs =
       ["badid not a known requirement id"] ∧
     (s.handle_post [("badid.EnvVarProvider.value", v)]).events = [⟨s.stage_result⟩]) ∧
    (∀ i r, List.find? (fun p => p.1 == i) s.requirements_by_id = some (i, r) →
     splitDots (i ++ ".BadProvider.value") = [i, "BadProvider", "value"] →
     (s.handle_post [(i ++ ".BadProvider.value", v)]).code = 200 ∧
     (s.handle_post [(i ++ ".BadProvider.value", v)]).logs =
       ["did not find provider BadProvider"] ∧
     (s.handle_post [(i ++ ".BadProvider.value", v)]).events = [⟨s.stage_result⟩]) := by
  refine ⟨fun form => ⟨rfl, rfl⟩, ⟨rfl, ?_, rfl⟩, ?_, ?_⟩
  · simp [UIServer.handle_post, routePostedField, splitDots, splitDotsAux, pyStrListRepr]
    decide
  · intro hfind
    refine ⟨rfl, ?_, rfl⟩
    simp [UIServer.handle_post, routePostedField, splitDots, splitDotsAux, hfind]
  · intro i r hfind hsplit
    refine ⟨rfl, ?_, rfl⟩
    simp [UIServer.handle_post, routePostedField, hsplit, hfind, providerNames]

/-- Witness for C4 on `exServer`: all three malformed posts at once. -/
theorem ui_malformed_post_swallowed_witness :
    ((exServer.handle_post []).code = 200 ∧
     (exServer.handle_post []).events = [⟨PrepareResult.success []⟩]) ∧
    ((exServer.handle_post [("nopieces", "bloop")]).code = 200 ∧
     (exServer.handle_post [("nopieces", "bloop")]).logs =
       ["not enough pieces in ['nopieces']"] ∧
     (exServer.handle_post [("nopieces", "bloop")]).events =
       [⟨PrepareResult.success []⟩]) ∧
    ((exServer.handle_post [("badid.EnvVarProvider.value", "bloop")]).code = 200 ∧
     (exServer.handle_post [("badid.EnvVarProvider.value", "bloop")]).logs =
       ["badid not a known requirement id"] ∧
     (exServer.handle_post [("badid.EnvVarProvider.value", "bloop")]).events =
       [⟨PrepareResult.success []⟩]) ∧
    ((exServer.handle_post [("r1" ++ ".BadProvider.value", "bloop")]).code = 200 ∧
     (exServer.handle_post [("r1" ++ ".BadProvider.value", "bloop")]).logs =
       ["did not find provider BadProvider"] ∧
     (exServer.handle_post [("r1" ++ ".BadProvider.value", "bloop")]).events =
       [⟨PrepareResult.success []⟩]) := by
  have h := ui_malformed_post_swallowed exServer "bloop"
  exact ⟨h.1 [], h.2.1, h.2.2.1 rfl, h.2.2.2 "r1" ⟨⟨fun _ => []⟩, [], "FOO"⟩ rfl (by decide)⟩

/-- C7: after any POST the server emits exactly one completion event
carrying the stage's result; for the session with zero requirements
and the no-op stage the event carries a success result with empty
logs (and the response itself logs nothing); `unlisten` then releases
the listening socket. -/
theorem ui_exactly_one_done_event (s : UIServer) (form : List (String × String)) :
    (s.handle_post form).events = [⟨s.stage_result⟩] ∧
    (s.handle_post form).events.length = 1 ∧
    (s.requirements_by_id = [] → s.stage_result = PrepareResult.success [] → form = [] →
      (s.handle_post form).logs = [] ∧
      (s.handle_post form).events = [⟨PrepareResult.success []⟩]) ∧
    (s.unlisten).listening = false := by
  refine ⟨rfl, rfl, ?_, rfl⟩
  intro _ hres hform
  subst hform
  exact ⟨rfl, by simp [UIServer.handle_post, hres]⟩

/-- Witness for C7: the empty session (no requirements, empty POST). -/
theorem ui_exactly_one_done_event_witness :
    ((⟨[], [], PrepareResult.success [], true⟩ : UIServer).handle_post []).events =
      [⟨PrepareResult.success []⟩] ∧
    ((⟨[], [], PrepareResult.success [], true⟩ : UIServer).handle_post []).events.length = 1 ∧
    ((⟨[], [], PrepareResult.success [], true⟩ : UIServer).handle_post []).logs = [] ∧
    ((⟨[], [], PrepareResult.success [], true⟩ : UIServer).unlisten).listening = false := by
  have h := ui_exactly_one_done_event ⟨[], [], PrepareResult.success [], true⟩ []
  exact ⟨h.1, h.2.1, (h.2.2.1 rfl rfl rfl).1, h.2.2.2⟩

/-- Modelled from the spec: the service types known to the registry
(redis is the one exercised by the tests). -/
def knownServiceTypes : List String := ["redis"]

/-- Whether a declared default value is a legal scalar (null, a string
or a number). -/
def scalarOk : PyValue → Bool
  | PyValue.none => true
  | PyValue.str _ => true
  | PyValue.int _ => true
  | _ => false

mutual

/-- Python `repr` of a value, as embedded in problem messages. -/
def pyRepr : PyValue → String
  | PyValue.none => "None"
  | PyValue.bool b => if b then "True" else "False"
  | PyValue.int n => toString n
  | PyValue.str s => "'" ++ s ++ "'"
  | PyValue.list items => "[" ++ pyReprItems items ++ "]"
  | PyValue.dict entries => "\x7b" ++ pyReprEntries entries ++ "\x7d"

/-- Python `repr` of the items of a list, comma separated. -/
def pyReprItems : List PyValue → String
  | [] => ""
  | [x] => pyRepr x
  | x :: rest => pyRepr x ++ ", " ++ pyReprItems rest

/-- Python `repr` of the entries of a dict, comma separated. -/
def pyReprEntries : List (String × PyValue) → String
  | [] => ""
  | [(k, x)] => "'" ++ k ++ "': " ++ pyRepr x
  | (k, x) :: rest => "'" ++ k ++ "': " ++ pyRepr x ++ ", " ++ pyReprEntries rest

end

/-- Modelled from the spec: loading of one service declaration
(`name: value` under `services:`), whose checks and problem strings are
pinned down by `test_service_requirement.py`.  The checks run in order
and stop at the first violation, so the returned problem list holds at
most one string, and loading never raises. -/
def parseService (name : String) (v : PyValue) : List String :=
  match v with
  | PyValue.str t =>
      if knownServiceTypes.contains t then []
      else ["Service " ++ name ++ " has an unknown type '" ++ t ++ "'."]
  | PyValue.dict entries =>
      match pyLookup entries "type" with
      | some (PyValue.str t) =>
          if knownServiceTypes.contains t then
            match pyLookup entries "default" with
            | some dv =>
                if scalarOk dv then []
                else ["default value for variable " ++ name ++
                      " must be null, a string, or a number, not " ++ pyRepr dv ++ "."]
            | Option.none => []
          else ["Service " ++ name ++ " has an unknown type '" ++ t ++ "'."]
      | _ => ["Service " ++ name ++ " doesn't contain a 'type' field."]
  | _ => ["Service " ++ name ++
          " should have a service type string or a dictionary as its value."]

/-- Modelled from the spec's words: a service declaration is
well-formed when its value is a known service type string, or a
dictionary whose "type" field is a known type string and whose
"default" field, when present, is null, a string or a number. -/
def serviceWellFormed (v : PyValue) : Bool :=
  match v with
  | PyValue.str t => knownServiceTypes.contains t
  | PyValue.dict entries =>
      match pyLookup entries "type" with
      | some (PyValue.str t) =>
          knownServiceTypes.contains t &&
            (match pyLookup entries "default" with
             | some dv => scalarOk dv
             | Option.none => true)
      | _ => false
  | _ => false

theorem parseService_nil_or_one (name : String) (v : PyValue) :
    parseService name v = [] ∨ (parseService name v).length = 1 := by
  unfold parseService
  split
  · split
    · exact Or.inl rfl
    · exact Or.inr rfl
  · split
    · split
      · split
        · split
          · exact Or.inl rfl
          · exact Or.inr rfl
        · exact Or.inl rfl
      · exact Or.inr rfl
    · exact Or.inr rfl
  · exact Or.inr rfl

theorem parseService_nil_iff (name : String) (v : PyValue) :
    parseService name v = [] ↔ serviceWellFormed v = true := by
  unfold parseService serviceWellFormed
  cases v with
  | str t => by_cases h : t ∈ knownServiceTypes <;> simp [h]
  | dict entries =>
      cases ht : pyLookup entries "type" with
      | none => simp [ht]
      | some pv =>
          cases pv with
          | str t =>
              by_cases h : t ∈ knownServiceTypes
              · cases hdv : pyLookup entries "default" with
                | none => simp [ht, h, hdv]
                | some dv => by_cases hs : scalarOk dv = true <;> simp [ht, h, hdv, hs]
              · simp [ht, h]
          | none => simp [ht]
          | bool b => simp [ht]
          | int n => simp [ht]
          | list items => simp [ht]
          | dict es => simp [ht]
  | none => simp
  | bool b => simp
  | int n => simp
  | list items => simp

/-- C8: a malformed service declaration (value not a string or dict,
unknown type string, missing type field, or non-scalar default) is
reported as exactly one named problem string, never an exception
(`parseService` is total); a well-formed declaration reports none; the
four malformed shapes from the tests produce exactly the problem
strings the tests assert. -/
theorem service_declaration_problems (name : String) (v : PyValue) :
    (serviceWellFormed v = false → (parseService name v).length = 1) ∧
    (serviceWellFormed v = true → parseService name v = []) ∧
    (parseService name v).length ≤ 1 ∧
    parseService "FOOBAR" (PyValue.list [PyValue.int 42]) =
      ["Service FOOBAR should have a service type string or a dictionary as its value."] ∧
    parseService "FOOBAR" (PyValue.str "not_a_service") =
      ["Service FOOBAR has an unknown type 'not_a_service'."] ∧
    parseService "FOOBAR" (PyValue.dict []) =
      ["Service FOOBAR doesn't contain a 'type' field."] ∧
    parseService "FOOBAR"
        (PyValue.dict [("type", PyValue.str "redis"), ("default", PyValue.list [])]) =
      ["default value for variable FOOBAR must be null, a string, or a number, not []."] := by
  refine ⟨?_, ?_, ?_, by decide, by decide, by decide, by decide⟩
  · intro hwf
    rcases parseService_nil_or_one name v with hnil | hone
    · rw [(parseService_nil_iff name v).mp hnil] at hwf
      cases hwf
    · exact hone
  · intro hwf
    exact (parseService_nil_iff name v).mpr hwf
  · rcases parseService_nil_or_one name v with hnil | hone
    · simp [hnil]
    · simp [hone]

/-- Witness for C8 at the unknown-type declaration from the tests. -/
theorem service_declaration_problems_witness :
    (parseService "FOOBAR" (PyValue.str "not_a_service")).length = 1 :=
  (service_declaration_problems "FOOBAR" (PyValue.str "not_a_service")).1 (by decide)

/-- Modelled from the spec: the result of a CLI-level operation as the
tests drive it (`SimpleStatus`) — success flag, result description,
the log lines collected as progress and the error lines collected. -/
structure SimpleStatus where
  success : Bool
  description : String
  logs : List String
  errors : List String
deriving DecidableEq

/-- One output line per entry, each terminated by a newline. -/
def joinLines (l : List String) : String :=
  String.join (l.map (fun s => s ++ "\n"))

/-- Modelled from the spec: CLI-level printing and process exit (as
exercised by `test_unarchive.py`): collected logs are printed to
stdout in order; on success the description follows on stdout and the
exit code is 0; on failure the collected errors are printed to stderr
in order followed by the description and the exit code is 1.  Returns
(stdout, stderr, exit code). -/
def cliRun (st : SimpleStatus) : String × String × Nat :=
  if st.success then
    (joinLines st.logs ++ st.description ++ "\n", "", 0)
  else
    (joinLines st.logs, joinLines st.errors ++ st.description ++ "\n", 1)

/-- C9: logs go to stdout in order, errors (on failure) go to stderr
in order followed by the description, and the exit code is non-zero
iff the result is a failure; the two concrete runs of
`test_unarchive.py` evaluate to exactly the outputs the test asserts. -/
theorem cli_logs_errors_exit_code (st : SimpleStatus) :
    (cliRun st).1 = joinLines st.logs ++
      (if st.success then st.description ++ "\n" else "") ∧
    (cliRun st).2.1 =
      (if st.success then "" else joinLines st.errors ++ st.description ++ "\n") ∧
    ((cliRun st).2.2 = 0 ↔ st.success = true) ∧
    (¬ (cliRun st).2.2 = 0 ↔ st.success = false) ∧
    cliRun ⟨true, "DESC", ["a", "b"], []⟩ = ("a\nb\nDESC\n", "", 0) ∧
    cliRun ⟨false, "DESC", ["a", "b"], ["c", "d"]⟩ = ("a\nb\n", "c\nd\nDESC\n", 1) := by
  refine ⟨?_, ?_, ?_, ?_, by decide, by decide⟩ <;>
    cases hs : st.success <;> simp [cliRun, hs, String.append_assoc]
